import Mathlib

/-!
Verification of the toktop terminal dashboard against its natural-language
specification.  The Rust sources are shallowly embedded: pure functions become
Lean functions over Nat / Int / Rat (Rat stands in for f64, exact for the
comparisons and divisions the code performs), stateful navigation code becomes
a step relation on an explicit state type, and the paginated HTTP loops become
functions over an abstract server (a map from cursor to response), instrumented
with a request counter or a fuel argument where the Rust loop is unbounded.
-/

namespace Toktop

/-! ## Chart layout engine (src/ui/content/shared.rs) -/

/-- Embeds const VERTICAL_BAR_SPACING: u16 = 1. -/
def VERTICAL_BAR_SPACING : Nat := 1

/-- Embeds const MAX_BAR_WIDTH: u16 = 16. -/
def MAX_BAR_WIDTH : Nat := 16

/-- Embeds struct VerticalBarLayout from src/ui/content/shared.rs. -/
structure VerticalBarLayout where
  start_index : Nat
  visible_bars : Nat
  bar_width : Nat
  spacing : Nat
  offset : Nat
  deriving Repr, DecidableEq

/-- Embeds the while-loop of vertical_bar_layout: the Rust loop decrements
mutable visible down from its initial value, so it is structural recursion
on visible. -/
def vblLoop (total_bars area_width scroll_offset : Nat) : Nat → Option VerticalBarLayout
  | 0 => none
  | v + 1 =>
    let visible := v + 1
    let total_spacing := if visible > 1 then (visible - 1) * VERTICAL_BAR_SPACING else 0
    if area_width ≤ total_spacing then
      vblLoop total_bars area_width scroll_offset v
    else
      let available_width := area_width - total_spacing
      let bar_width := min (min (max (available_width / visible) 5) area_width) MAX_BAR_WIDTH
      let required := visible * bar_width + total_spacing
      if required ≤ area_width then
        some
          { start_index := min scroll_offset (total_bars - visible)
            visible_bars := visible
            bar_width := bar_width
            spacing := VERTICAL_BAR_SPACING
            offset := (area_width - required) / 2 }
      else
        vblLoop total_bars area_width scroll_offset v

/-- Embeds vertical_bar_layout from src/ui/content/shared.rs. -/
def vertical_bar_layout (total_bars area_width scroll_offset : Nat) :
    Option VerticalBarLayout :=
  if total_bars = 0 ∨ area_width = 0 then none
  else vblLoop total_bars area_width scroll_offset (min total_bars area_width)

/-- Every layout produced by the loop has visible_bars at least 1 and at most
the initial visible bound, bar_width between min 5 area_width and
min area_width MAX_BAR_WIDTH, and the clamped start index. -/
theorem vblLoop_sound (total_bars area_width scroll_offset : Nat) :
    ∀ v l, vblLoop total_bars area_width scroll_offset v = some l →
      1 ≤ l.visible_bars ∧ l.visible_bars ≤ v ∧
      min 5 area_width ≤ l.bar_width ∧ l.bar_width ≤ min area_width MAX_BAR_WIDTH ∧
      l.start_index = min scroll_offset (total_bars - l.visible_bars) := by
  intro v
  induction v with
  | zero => intro l h; simp [vblLoop] at h
  | succ n ih =>
    intro l h
    simp only [vblLoop] at h
    by_cases hsp : area_width ≤ (if n + 1 > 1 then (n + 1 - 1) * VERTICAL_BAR_SPACING else 0)
    · rw [if_pos hsp] at h
      rcases ih l h with ⟨h1, h2, h3, h4, h5⟩
      exact ⟨h1, Nat.le_succ_of_le h2, h3, h4, h5⟩
    · rw [if_neg hsp] at h
      by_cases hreq :
          (n + 1) * min (min (max ((area_width -
            (if n + 1 > 1 then (n + 1 - 1) * VERTICAL_BAR_SPACING else 0)) / (n + 1)) 5)
              area_width) MAX_BAR_WIDTH +
            (if n + 1 > 1 then (n + 1 - 1) * VERTICAL_BAR_SPACING else 0) ≤ area_width
      · rw [if_pos hreq] at h
        have hl := Option.some.inj h
        subst hl
        refine ⟨Nat.succ_le_succ (Nat.zero_le n), Nat.le_refl _, ?_, ?_, rfl⟩
        · have h5 : 5 ≤ max ((area_width -
              (if n + 1 > 1 then (n + 1 - 1) * VERTICAL_BAR_SPACING else 0)) / (n + 1)) 5 :=
            Nat.le_max_right _ _
          simp only [MAX_BAR_WIDTH]
          omega
        · simp only [MAX_BAR_WIDTH]
          omega
      · rw [if_neg hreq] at h
        rcases ih l h with ⟨h1, h2, h3, h4, h5⟩
        exact ⟨h1, Nat.le_succ_of_le h2, h3, h4, h5⟩

/-- C3 counterexample: with 10 bars in a 3-column area the layout function does
not return none; it returns a single bar of width 3 (below the claimed minimum
width of 5). -/
theorem vertical_bar_layout_width3_not_none :
    vertical_bar_layout 10 3 0 =
      some { start_index := 0, visible_bars := 1, bar_width := 3, spacing := 1, offset := 0 } ∧
    ¬ (∀ t w s l, vertical_bar_layout t w s = some l → 5 ≤ l.bar_width) := by
  constructor
  · decide
  · intro h
    have h3 := h 10 3 0
      { start_index := 0, visible_bars := 1, bar_width := 3, spacing := 1, offset := 0 }
      (by decide)
    simp at h3

/-- C3 (amended): every returned layout has bar_width at least min 5 area_width
and at most min area_width 16 — the minimum-width clamp of 5 is itself capped by
the area width — and vertical_bar_layout 10 3 0 returns one 3-wide bar. -/
theorem vertical_bar_layout_width_bounds (t w s : Nat) (l : VerticalBarLayout)
    (h : vertical_bar_layout t w s = some l) :
    min 5 w ≤ l.bar_width ∧ l.bar_width ≤ min w MAX_BAR_WIDTH ∧
    vertical_bar_layout 10 3 0 =
      some { start_index := 0, visible_bars := 1, bar_width := 3, spacing := 1, offset := 0 } := by
  unfold vertical_bar_layout at h
  by_cases h0 : t = 0 ∨ w = 0
  · rw [if_pos h0] at h; cases h
  · rw [if_neg h0] at h
    rcases vblLoop_sound t w s (min t w) l h with ⟨_, _, h3, h4, _⟩
    exact ⟨h3, h4, by decide⟩

/-- Witness for vertical_bar_layout_width_bounds at total_bars 10,
area_width 60, scroll 0. -/
theorem vertical_bar_layout_width_bounds_witness :
    min 5 60 ≤ 5 ∧ 5 ≤ min 60 MAX_BAR_WIDTH := by
  have h := vertical_bar_layout_width_bounds 10 60 0
    { start_index := 0, visible_bars := 10, bar_width := 5, spacing := 1, offset := 0 }
    (by decide)
  exact ⟨h.1, h.2.1⟩

/-- C7: a layout returned for positive total_bars and area_width has the
clamped start index min scroll_offset (total_bars - visible_bars), and the
visible window stays inside the date array. -/
theorem vertical_bar_layout_scroll_clamp (t w s : Nat) (l : VerticalBarLayout)
    (ht : 0 < t) (hw : 0 < w) (h : vertical_bar_layout t w s = some l) :
    l.start_index = min s (t - l.visible_bars) ∧
    l.start_index + l.visible_bars ≤ t := by
  unfold vertical_bar_layout at h
  rw [if_neg (by omega)] at h
  rcases vblLoop_sound t w s (min t w) l h with ⟨h1, h2, _, _, h5⟩
  have hvt : l.visible_bars ≤ t := le_trans h2 (min_le_left _ _)
  constructor
  · exact h5
  · have : min s (t - l.visible_bars) ≤ t - l.visible_bars := min_le_right _ _
    omega

/-- Witness for vertical_bar_layout_scroll_clamp: 10 bars, width 60, scroll
offset 999 clamps the start index to 10 - 10 = 0. -/
theorem vertical_bar_layout_scroll_clamp_witness :
    (0 : Nat) < 10 ∧ (0 : Nat) < 60 ∧ (0 = min 999 (10 - 10) ∧ 0 + 10 ≤ 10) := by
  refine ⟨by decide, by decide, ?_⟩
  exact vertical_bar_layout_scroll_clamp 10 60 999
    { start_index := 0, visible_bars := 10, bar_width := 5, spacing := 1, offset := 0 }
    (by decide) (by decide) (by decide)

/-! ## Smart scale (src/ui/content/shared.rs, calculate_smart_scale)

f64 totals are modelled as rationals: the code only compares, multiplies by the
constants 0.75, 2 and 3, and indexes a sorted list, all exact here. Rust's
sort_by(partial_cmp) on the positive totals is modelled by insertion sort on ℚ. -/

/-- Embeds const OUTLIER_THRESHOLD: f64 = 3.0. -/
def OUTLIER_THRESHOLD : ℚ := 3

/-- Embeds calculate_smart_scale from src/ui/content/shared.rs. -/
def calculate_smart_scale (totals : List ℚ) : ℚ × ℚ :=
  if totals = [] then (1, 1)
  else
    let actual_max := totals.foldl max 0
    if actual_max ≤ 0 then (1, 0)
    else
      let sorted := List.insertionSort (· ≤ ·) (totals.filter (fun v => 0 < v))
      if sorted = [] then (actual_max, actual_max)
      else
        let p75_idx := min (3 * sorted.length / 4) (sorted.length - 1)
        let p75 := sorted.getD p75_idx 0
        if p75 * OUTLIER_THRESHOLD < actual_max ∧ 0 < p75 then (p75 * 2, actual_max)
        else (actual_max, actual_max)

/-- Written from the claim's words, for comparison with the code: the 75th
percentile of the positive totals, i.e. the entry at index ⌊0.75·n⌋ (clamped
to n−1) of the ascending sort of the positive totals. -/
def percentile75 (totals : List ℚ) : ℚ :=
  let sorted := List.insertionSort (· ≤ ·) (totals.filter (fun v => 0 < v))
  sorted.getD (min (3 * sorted.length / 4) (sorted.length - 1)) 0

theorem le_foldl_max {α : Type} [LinearOrder α] (l : List α) (a : α) :
    a ≤ l.foldl max a := by
  induction l generalizing a with
  | nil => exact le_refl a
  | cons b t ih => exact le_trans (le_max_left a b) (ih (max a b))

theorem foldl_max_le {α : Type} [LinearOrder α] {l : List α} {x : α} (a : α)
    (hx : x ∈ l) : x ≤ l.foldl max a := by
  induction l generalizing a with
  | nil => cases hx
  | cons b t ih =>
    rcases List.mem_cons.mp hx with h | h
    · subst h
      exact le_trans (le_max_right a x) (le_foldl_max t (max a x))
    · exact ih (max a b) h

theorem foldl_max_mem {α : Type} [LinearOrder α] (l : List α) (a : α) :
    l.foldl max a = a ∨ l.foldl max a ∈ l := by
  induction l generalizing a with
  | nil => exact Or.inl rfl
  | cons b t ih =>
    rcases ih (max a b) with h | h
    · rcases max_choice a b with hm | hm
      · exact Or.inl (by rw [List.foldl_cons, h, hm])
      · exact Or.inr (by rw [List.foldl_cons, h, hm]; exact List.mem_cons_self b t)
    · exact Or.inr (List.mem_cons_of_mem b h)

theorem foldl_max_le_bound {α : Type} [LinearOrder α] {m : α} (l : List α) (a : α)
    (ha : a ≤ m) (hub : ∀ x ∈ l, x ≤ m) : l.foldl max a ≤ m := by
  induction l generalizing a with
  | nil => exact ha
  | cons b t ih =>
    exact ih (max a b) (max_le ha (hub b (List.mem_cons_self b t)))
      (fun x hx => hub x (List.mem_cons_of_mem b hx))

theorem max?_eq_some_of {α : Type} [LinearOrder α] {l : List α} {m : α}
    (hm : m ∈ l) (hub : ∀ x ∈ l, x ≤ m) : l.max? = some m := by
  cases l with
  | nil => cases hm
  | cons a t =>
    have hle : t.foldl max a ≤ m :=
      foldl_max_le_bound t a (hub a (List.mem_cons_self a t))
        (fun x hx => hub x (List.mem_cons_of_mem a hx))
    have hge : m ≤ t.foldl max a := by
      rcases List.mem_cons.mp hm with h | h
      · exact h ▸ le_foldl_max t a
      · exact foldl_max_le a h
    show some (t.foldl max a) = some m
    rw [le_antisymm hle hge]

theorem max?_mem_ub {α : Type} [LinearOrder α] {l : List α} {m : α}
    (h : l.max? = some m) : m ∈ l ∧ ∀ x ∈ l, x ≤ m := by
  cases l with
  | nil => cases h
  | cons a t =>
    have hm : t.foldl max a = m := Option.some.inj h
    constructor
    · rcases foldl_max_mem t a with h0 | h0
      · exact List.mem_cons.mpr (Or.inl (by rw [← hm, h0]))
      · exact List.mem_cons_of_mem a (hm ▸ h0)
    · intro x hx
      rcases List.mem_cons.mp hx with h0 | h0
      · exact h0 ▸ hm ▸ le_foldl_max t a
      · exact hm ▸ foldl_max_le a h0

/-- C2 counterexample: on the per-date total list [0] the code returns
display_max = 1 and actual_max = 0, but the maximum of the totals is 0 and
the returned display_max equals neither 2·p75 nor that maximum, so the
claimed case analysis fails on this input. -/
theorem calculate_smart_scale_zero_counterexample :
    calculate_smart_scale [0] = (1, 0) ∧
    ((0 : ℚ) ∈ [(0 : ℚ)] ∧ ∀ x ∈ [(0 : ℚ)], x ≤ 0) ∧
    (calculate_smart_scale [0]).1 ≠ 2 * percentile75 [0] ∧
    (calculate_smart_scale [0]).1 ≠ 0 := by
  have h : calculate_smart_scale [0] = (1, 0) := by
    norm_num [calculate_smart_scale, List.foldl]
  refine ⟨h, ⟨List.mem_singleton_self 0, ?_⟩, ?_, ?_⟩
  · intro x hx
    rw [List.mem_singleton] at hx
    exact le_of_eq hx
  · rw [h]
    norm_num [percentile75, List.filter]
  · rw [h]
    norm_num

/-- C2 (amended): whenever some total is positive, calculate_smart_scale
returns (display_max, actual_max) with actual_max the maximum of the totals
and display_max = 2·p75 when actual_max > 3·p75 with p75 > 0, otherwise
display_max = actual_max, where p75 is the 75th percentile of the positive
totals; and [10,10,10,10,100] yields (20, 100). When no total is positive
the code instead returns display_max = 1 with actual_max = 0. -/
theorem calculate_smart_scale_spec (totals : List ℚ) (h : ∃ x ∈ totals, 0 < x) :
    (calculate_smart_scale totals).2 ∈ totals ∧
    (∀ x ∈ totals, x ≤ (calculate_smart_scale totals).2) ∧
    (calculate_smart_scale totals).1 =
      (if 3 * percentile75 totals < (calculate_smart_scale totals).2 ∧ 0 < percentile75 totals
        then 2 * percentile75 totals else (calculate_smart_scale totals).2) ∧
    calculate_smart_scale [10, 10, 10, 10, 100] = (20, 100) := by
  obtain ⟨x, hx, hxpos⟩ := h
  have hne : totals ≠ [] := List.ne_nil_of_mem hx
  have hMx : x ≤ totals.foldl max 0 := foldl_max_le 0 hx
  have hMpos : 0 < totals.foldl max 0 := lt_of_lt_of_le hxpos hMx
  have hMmem : totals.foldl max 0 ∈ totals := by
    rcases foldl_max_mem totals 0 with h0 | h0
    · exact absurd (h0 ▸ hMpos) (lt_irrefl 0)
    · exact h0
  have hfilter : x ∈ totals.filter (fun v => decide (0 < v)) :=
    List.mem_filter.mpr ⟨hx, by simpa using hxpos⟩
  have hsorted :
      List.insertionSort (· ≤ ·) (totals.filter (fun v => 0 < v)) ≠ [] := by
    intro hcontra
    have hperm := List.perm_insertionSort (· ≤ ·) (totals.filter (fun v => 0 < v))
    rw [hcontra] at hperm
    rw [List.Perm.eq_nil hperm.symm] at hfilter
    cases hfilter
  have heq : calculate_smart_scale totals =
      (if (List.insertionSort (· ≤ ·) (totals.filter (fun v => 0 < v))).getD
            (min (3 * (List.insertionSort (· ≤ ·)
              (totals.filter (fun v => 0 < v))).length / 4)
              ((List.insertionSort (· ≤ ·) (totals.filter (fun v => 0 < v))).length - 1)) 0 *
            OUTLIER_THRESHOLD < totals.foldl max 0 ∧
          0 < (List.insertionSort (· ≤ ·) (totals.filter (fun v => 0 < v))).getD
            (min (3 * (List.insertionSort (· ≤ ·)
              (totals.filter (fun v => 0 < v))).length / 4)
              ((List.insertionSort (· ≤ ·) (totals.filter (fun v => 0 < v))).length - 1)) 0
        then ((List.insertionSort (· ≤ ·) (totals.filter (fun v => 0 < v))).getD
            (min (3 * (List.insertionSort (· ≤ ·)
              (totals.filter (fun v => 0 < v))).length / 4)
              ((List.insertionSort (· ≤ ·) (totals.filter (fun v => 0 < v))).length - 1)) 0 * 2,
          totals.foldl max 0)
        else (totals.foldl max 0, totals.foldl max 0)) := by
    rw [calculate_smart_scale, if_neg hne]
    simp only []
    rw [if_neg (not_le.mpr hMpos), if_neg hsorted]
  rw [heq]
  have hcomm : ∀ p : ℚ, p * OUTLIER_THRESHOLD = 3 * p := by
    intro p
    rw [OUTLIER_THRESHOLD, mul_comm]
  by_cases hcond :
      percentile75 totals * OUTLIER_THRESHOLD < totals.foldl max 0 ∧ 0 < percentile75 totals
  · rw [if_pos (by rw [percentile75] at hcond; exact hcond)]
    refine ⟨hMmem, fun y hy => foldl_max_le 0 hy, ?_, ?_⟩
    · rw [if_pos ⟨by rw [← hcomm]; exact hcond.1, hcond.2⟩]
      rw [percentile75, mul_comm]
    · norm_num [calculate_smart_scale, OUTLIER_THRESHOLD, List.insertionSort,
        List.orderedInsert, List.foldl, List.filter, max_def]
      simp
  · rw [if_neg (by rw [percentile75] at hcond; exact hcond)]
    refine ⟨hMmem, fun y hy => foldl_max_le 0 hy, ?_, ?_⟩
    · rw [if_neg (by rw [← hcomm] at *; exact hcond)]
    · norm_num [calculate_smart_scale, OUTLIER_THRESHOLD, List.insertionSort,
        List.orderedInsert, List.foldl, List.filter, max_def]
      simp

/-- Witness for calculate_smart_scale_spec at [10,10,10,10,100]: actual_max
100 is the maximum and display_max is 20 = 2·p75. -/
theorem calculate_smart_scale_spec_witness :
    (calculate_smart_scale [10, 10, 10, 10, 100]).2 ∈ [(10 : ℚ), 10, 10, 10, 100] ∧
    calculate_smart_scale [10, 10, 10, 10, 100] = (20, 100) := by
  have h := calculate_smart_scale_spec [10, 10, 10, 10, 100] ⟨10, by norm_num, by norm_num⟩
  exact ⟨h.1, h.2.2.2⟩

/-! ## Color assignment (src/ui/colors.rs and create_color_mapping in
src/ui/content/shared.rs)

ratatui colors are embedded as a small inductive; Rust's lexicographic String
sort is embedded as insertion sort under a codepoint-lexicographic comparator
(UTF-8 byte order and codepoint order agree); the HashMap built by collect is
embedded as the insertion-ordered association list with a last-wins lookup. -/

/-- The ratatui color variants the palettes use. -/
inductive Color where
  | Blue | Cyan | Green | Magenta | Yellow | LightBlue | Red | White | Black
  | Gray | DarkGray
  | Rgb (r g b : Nat)
  deriving Repr, DecidableEq

/-- Embeds struct ColorPalette from src/ui/colors.rs. -/
structure ColorPalette where
  primary : Color
  accent : Color
  error : Color
  chart_colors : List Color
  selected_bg : Color
  selected_fg : Color

/-- Embeds ColorPalette::anthropic from src/ui/colors.rs. -/
def anthropic_palette : ColorPalette :=
  { primary := Color.Rgb 0xCC 0x78 0x5C
    accent := Color.Rgb 0x61 0xAA 0xF2
    error := Color.Rgb 0xBF 0x4D 0x43
    chart_colors :=
      [Color.Rgb 0xCC 0x78 0x5C, Color.Rgb 0xD4 0xA2 0x7F, Color.Rgb 0xEB 0xDB 0xBC,
        Color.Rgb 0xBF 0x4D 0x43, Color.Rgb 0xE5 0xE4 0xDF, Color.Rgb 0xF0 0xF0 0xEB]
    selected_bg := Color.Rgb 0xCC 0x78 0x5C
    selected_fg := Color.Rgb 0xFF 0xFF 0xFF }

/-- Embeds ColorPalette::openai from src/ui/colors.rs. -/
def openai_palette : ColorPalette :=
  { primary := Color.Cyan
    accent := Color.Green
    error := Color.Red
    chart_colors :=
      [Color.Blue, Color.Cyan, Color.Green, Color.Magenta, Color.Yellow, Color.LightBlue,
        Color.Rgb 0x4A 0x90 0xE2, Color.Rgb 0x50 0xC8 0x78, Color.Rgb 0x9B 0x59 0xB6,
        Color.Rgb 0xE7 0x4C 0x3C, Color.Rgb 0xF3 0x9C 0x12, Color.Rgb 0x1A 0xBC 0x9C,
        Color.Rgb 0x34 0x98 0xDB, Color.Rgb 0x95 0xA5 0xA6, Color.Rgb 0xE6 0x7E 0x22,
        Color.Rgb 0x8E 0x44 0xAD, Color.Rgb 0x16 0xA0 0x85, Color.Rgb 0x27 0xAE 0x60,
        Color.Rgb 0x29 0x80 0xB9]
    selected_bg := Color.Cyan
    selected_fg := Color.Black }

/-- Codepoint-lexicographic comparison of char lists; agrees with Rust's
byte-lexicographic String order for valid UTF-8. -/
def lexLeChars : List Char → List Char → Bool
  | [], _ => true
  | _ :: _, [] => false
  | a :: as, b :: bs =>
    if a.toNat < b.toNat then true
    else if b.toNat < a.toNat then false
    else lexLeChars as bs

/-- Rust String Ord, embedded over the characters. -/
def strLe (a b : String) : Bool := lexLeChars a.data b.data

/-- Embeds Vec::sort on Vec of String (stable, so equal to insertion sort). -/
def sortStrings (l : List String) : List String :=
  List.insertionSort (fun a b => strLe a b) l

/-- Embeds create_color_mapping from src/ui/content/shared.rs: sort the items,
then pair item i with chart_colors of i mod palette size, collected into a map
(insertion order, later keys overwrite earlier). -/
def create_color_mapping (items : List String) (palette : ColorPalette) :
    List (String × Color) :=
  (sortStrings items).enum.map
    (fun p => (p.2, palette.chart_colors.getD (p.1 % palette.chart_colors.length) Color.White))

/-- Lookup in the association list built by collect into a HashMap: the last
binding of a key wins, as later HashMap inserts overwrite earlier ones. -/
def hashMapGet (pairs : List (String × Color)) (key : String) : Option Color :=
  ((pairs.filter (fun q => q.1 == key)).getLast?).map (fun q => q.2)

/-- C4 counterexample: the views build their mappings from their own category
sets, not the union. With the OpenAI palette, cost categories
["a", "gpt-4"] give "gpt-4" the second palette color (Cyan) while usage
categories ["gpt-4"] give it the first (Blue): the shared key "gpt-4" renders
in different colors in the two charts. -/
theorem create_color_mapping_no_union :
    hashMapGet (create_color_mapping ["a", "gpt-4"] openai_palette) "gpt-4" =
      some Color.Cyan ∧
    hashMapGet (create_color_mapping ["gpt-4"] openai_palette) "gpt-4" =
      some Color.Blue ∧
    Color.Cyan ≠ Color.Blue := by
  refine ⟨by decide, by decide, by decide⟩

theorem filter_enumFrom_not_mem (g : Nat → Color) (key : String) :
    ∀ (l : List String) (n : Nat), key ∉ l →
      ((List.enumFrom n l).map (fun p => (p.2, g p.1))).filter (fun q => q.1 == key) = [] := by
  intro l
  induction l with
  | nil => intro n _; rfl
  | cons a t ih =>
    intro n hmem
    have hne : a ≠ key := fun hcontra => hmem (hcontra ▸ List.mem_cons_self a t)
    simp only [List.enumFrom, List.map_cons, List.filter_cons]
    rw [if_neg (by simpa using hne)]
    exact ih (n + 1) (fun hcontra => hmem (List.mem_cons_of_mem a hcontra))

theorem filter_enumFrom_nodup (g : Nat → Color) :
    ∀ (l : List String) (i : Nat) (hi : i < l.length), l.Nodup → ∀ n : Nat,
      ((List.enumFrom n l).map (fun p => (p.2, g p.1))).filter
          (fun q => q.1 == l.get ⟨i, hi⟩) =
        [(l.get ⟨i, hi⟩, g (n + i))] := by
  intro l
  induction l with
  | nil => intro i hi; cases hi
  | cons a t ih =>
    intro i hi hnd n
    rcases List.nodup_cons.mp hnd with ⟨hna, hndt⟩
    cases i with
    | zero =>
      simp only [List.get, List.enumFrom, List.map_cons, List.filter_cons]
      rw [if_pos (by simp)]
      rw [filter_enumFrom_not_mem g a t (n + 1) hna, Nat.add_zero]
    | succ j =>
      have hj : j < t.length := Nat.lt_of_succ_lt_succ hi
      have hget : (a :: t).get ⟨j + 1, hi⟩ = t.get ⟨j, hj⟩ := rfl
      rw [hget]
      simp only [List.enumFrom, List.map_cons, List.filter_cons]
      have hne : ¬ a = t.get ⟨j, hj⟩ := by
        intro hcontra
        exact hna (hcontra ▸ t.get_mem j hj)
      rw [if_neg (by simpa using hne)]
      rw [ih j hj hndt (n + 1)]
      have harith : n + 1 + j = n + (j + 1) := by omega
      rw [harith]

/-- C4 (amended): each chart assigns colors from its own category set, not the
union: create_color_mapping sorts the given set and assigns
chart_colors[index mod palette size], so two views give a shared key the same
color exactly when the sorted category lists drive it to the same index — in
particular whenever the two sorted sets coincide (as in the spec's instance
where both sets are just gpt-4). -/
theorem create_color_mapping_per_view (p : ColorPalette) :
    (∀ C U : List String, sortStrings C = sortStrings U →
      ∀ x, hashMapGet (create_color_mapping C p) x = hashMapGet (create_color_mapping U p) x) ∧
    (∀ (items : List String) (i : Nat) (hi : i < (sortStrings items).length),
      (sortStrings items).Nodup →
      hashMapGet (create_color_mapping items p) ((sortStrings items).get ⟨i, hi⟩) =
        some (p.chart_colors.getD (i % p.chart_colors.length) Color.White)) := by
  constructor
  · intro C U h x
    unfold create_color_mapping
    rw [h]
  · intro items i hi hnd
    unfold create_color_mapping hashMapGet
    rw [List.enum]
    rw [filter_enumFrom_nodup
      (fun k => p.chart_colors.getD (k % p.chart_colors.length) Color.White)
      (sortStrings items) i hi hnd 0]
    simp

/-- Witness for create_color_mapping_per_view: the cost set ["gpt-4", "a"] and
the usage set ["a", "gpt-4"] sort identically, so the shared key "gpt-4" gets
one color (the second OpenAI palette entry) in both charts. -/
theorem create_color_mapping_per_view_witness :
    hashMapGet (create_color_mapping ["gpt-4", "a"] openai_palette) "gpt-4" =
      hashMapGet (create_color_mapping ["a", "gpt-4"] openai_palette) "gpt-4" ∧
    hashMapGet (create_color_mapping ["a", "gpt-4"] openai_palette)
        ((sortStrings ["a", "gpt-4"]).get ⟨1, by decide⟩) =
      some (openai_palette.chart_colors.getD (1 % openai_palette.chart_colors.length)
        Color.White) := by
  constructor
  · exact (create_color_mapping_per_view openai_palette).1 ["gpt-4", "a"] ["a", "gpt-4"]
      (by decide) "gpt-4"
  · exact (create_color_mapping_per_view openai_palette).2 ["a", "gpt-4"] 1 (by decide)
      (by decide)

/-! ## Records, range filter and category filter
(src/models.rs, src/ui/content/cost.rs, src/ui/content/usage.rs)

chrono DateTime of Utc is a point on the UTC timeline, embedded as an integer
number of seconds; Duration::days(n) is n·86400 seconds. -/

/-- Embeds struct DailyData from src/models.rs (f64 cost as ℚ). -/
structure DailyData where
  date : Int
  cost : ℚ
  line_item : Option String
  deriving Repr, DecidableEq

/-- Embeds struct DailyUsageData from src/models.rs. -/
structure DailyUsageData where
  date : Int
  input_tokens : Nat
  output_tokens : Nat
  api_key_id : Option String
  model : Option String
  deriving Repr, DecidableEq

/-- Embeds enum GroupBy from src/app.rs. -/
inductive GroupBy where
  | Model
  | ApiKeys
  deriving Repr, DecidableEq

/-- Modelled from the spec: the Range type and its days() accessor are not in
the sources under src/ (src/ui/options.rs and src/ui/header.rs only reference
the variants Range.SevenDays and Range.ThirtyDays); per the spec the range is
the trailing 7- or 30-day window. -/
inductive Range where
  | SevenDays
  | ThirtyDays
  deriving Repr, DecidableEq

/-- Modelled from the spec: days() of the trailing window. -/
def Range.days : Range → Nat
  | .SevenDays => 7
  | .ThirtyDays => 30

/-- Embeds filter_cost_data_by_range from src/ui/content/cost.rs. -/
def filter_cost_data_by_range (data : List DailyData) (range : Range) : List DailyData :=
  match (data.map (fun d => d.date)).max? with
  | none => []
  | some latest_date =>
    let span := range.days - 1
    let cutoff := latest_date - (span : Int) * 86400
    data.filter (fun d => cutoff ≤ d.date)

/-- Embeds filter_usage_data_by_range from src/ui/content/usage.rs. -/
def filter_usage_data_by_range (data : List DailyUsageData) (range : Range) :
    List DailyUsageData :=
  match (data.map (fun d => d.date)).max? with
  | none => []
  | some latest_date =>
    let span := range.days - 1
    let cutoff := latest_date - (span : Int) * 86400
    data.filter (fun d => cutoff ≤ d.date)

theorem max?_filter_ge {α : Type} (f : α → Int) (data : List α) (latest cutoff : Int)
    (hmax : (data.map f).max? = some latest) (hc : cutoff ≤ latest) :
    ((data.filter (fun d => decide (cutoff ≤ f d))).map f).max? = some latest := by
  rcases max?_mem_ub hmax with ⟨hmem, hub⟩
  rcases List.mem_map.mp hmem with ⟨d, hd, hfd⟩
  apply max?_eq_some_of
  · refine List.mem_map.mpr ⟨d, ?_, hfd⟩
    exact List.mem_filter.mpr ⟨hd, by simpa [hfd] using hc⟩
  · intro x hx
    rcases List.mem_map.mp hx with ⟨e, he, hfe⟩
    exact hub x (List.mem_map.mpr ⟨e, List.mem_filter.mp he |>.1, hfe⟩)

/-- C8: the trailing-range filter is idempotent for the cost records and for
the usage records, and an empty input yields an empty output. -/
theorem filter_by_range_idempotent :
    (∀ (data : List DailyData) (r : Range),
      filter_cost_data_by_range (filter_cost_data_by_range data r) r =
        filter_cost_data_by_range data r) ∧
    (∀ (data : List DailyUsageData) (r : Range),
      filter_usage_data_by_range (filter_usage_data_by_range data r) r =
        filter_usage_data_by_range data r) ∧
    (∀ r : Range, filter_cost_data_by_range [] r = []) ∧
    (∀ r : Range, filter_usage_data_by_range [] r = []) := by
  refine ⟨?_, ?_, fun r => rfl, fun r => rfl⟩
  · intro data r
    unfold filter_cost_data_by_range
    cases hmax : (data.map (fun d => d.date)).max? with
    | none => simp
    | some latest =>
      simp only []
      have hc : latest - ((r.days - 1 : Nat) : Int) * 86400 ≤ latest := by
        have : (0 : Int) ≤ ((r.days - 1 : Nat) : Int) * 86400 := by positivity
        omega
      rw [max?_filter_ge (fun d => d.date) data latest _ hmax hc]
      simp [List.filter_filter]
  · intro data r
    unfold filter_usage_data_by_range
    cases hmax : (data.map (fun d => d.date)).max? with
    | none => simp
    | some latest =>
      simp only []
      have hc : latest - ((r.days - 1 : Nat) : Int) * 86400 ≤ latest := by
        have : (0 : Int) ≤ ((r.days - 1 : Nat) : Int) * 86400 := by positivity
        omega
      rw [max?_filter_ge (fun d => d.date) data latest _ hmax hc]
      simp [List.filter_filter]

/-- Embeds extract_trimmed_string from src/ui/content/shared.rs: the trimmed
field when present and non-blank, none otherwise. -/
def extract_trimmed_string (o : Option String) : Option String :=
  (o.map (fun s => s.trim)).filter (fun s => !(s == ""))

/-- The grouping key of process_cost_data in src/ui/content/cost.rs: the
trimmed line_item, or "unknown" when absent or blank. -/
def cost_group_key (d : DailyData) : String :=
  ((d.line_item.map (fun s => s.trim)).filter (fun s => !(s == ""))).getD "unknown"

/-- The grouping key of process_usage_data in src/ui/content/usage.rs. -/
def usage_group_key (group_by : GroupBy) (d : DailyUsageData) : String :=
  match group_by with
  | .Model => ((d.model.map (fun s => s.trim)).filter (fun s => !(s == ""))).getD "unknown"
  | .ApiKeys =>
    ((d.api_key_id.map (fun s => s.trim)).filter (fun s => !(s == ""))).getD "unknown"

/-- Embeds apply_model_filter from src/ui/content/cost.rs. -/
def apply_model_filter (data : List DailyData) (selected_filter : Option String) :
    List DailyData :=
  match selected_filter with
  | some flt =>
    data.filter (fun d =>
      (((d.line_item.map (fun s => s.trim)).filter (fun s => !(s == ""))).map
        (fun s => s == flt)).getD false)
  | none => data

/-- Embeds apply_item_filter from src/ui/content/usage.rs. -/
def apply_item_filter (data : List DailyUsageData) (group_by : GroupBy)
    (selected_filter : Option String) : List DailyUsageData :=
  match selected_filter with
  | some flt =>
    data.filter (fun d =>
      match group_by with
      | .Model =>
        (((d.model.map (fun s => s.trim)).filter (fun s => !(s == ""))).map
          (fun s => s == flt)).getD false
      | .ApiKeys =>
        (((d.api_key_id.map (fun s => s.trim)).filter (fun s => !(s == ""))).map
          (fun s => s == flt)).getD false)
  | none => data

/-- C5 counterexample: a cost record with no line_item has group key "unknown",
yet selecting the filter "unknown" drops it: the filter chain returns false for
an absent field instead of falling back to "unknown". -/
theorem apply_model_filter_unknown_counterexample :
    apply_model_filter [{ date := 0, cost := 5, line_item := none }] (some "unknown") = [] ∧
    cost_group_key { date := 0, cost := 5, line_item := none } = "unknown" ∧
    usage_group_key GroupBy.Model
        ⟨0, 1, 0, none, none⟩ = "unknown" ∧
    apply_item_filter
        [(⟨0, 1, 0, none, none⟩ : DailyUsageData)] GroupBy.Model (some "unknown") = [] := by
  refine ⟨rfl, rfl, rfl, rfl⟩

theorem filter_chain_characterization (o : Option String) (flt : String) :
    (((o.map (fun s => s.trim)).filter (fun s => !(s == ""))).map
        (fun s => s == flt)).getD false = true ↔
      (((o.map (fun s => s.trim)).filter (fun s => !(s == ""))).getD "unknown" = flt ∧
        extract_trimmed_string o ≠ none) := by
  cases o with
  | none => simp [extract_trimmed_string]
  | some s =>
    by_cases hblank : s.trim = ""
    · simp [extract_trimmed_string, Option.filter, hblank]
    · simp [extract_trimmed_string, Option.filter, hblank]

/-- C5 (amended): with an active filter, the kept records are exactly those
whose field is present and non-blank after trimming and whose trimmed value
equals the filter string; equivalently, those whose group key equals the filter
AND whose raw field actually survives extract_trimmed_string. Records with an
absent or blank field match no filter at all — their group key falls back to
"unknown" for grouping, but selecting the filter "unknown" keeps only records
whose trimmed field is literally "unknown". -/
theorem category_filter_exact :
    (∀ (data : List DailyData) (flt : String) (d : DailyData),
      d ∈ apply_model_filter data (some flt) ↔
        d ∈ data ∧ cost_group_key d = flt ∧ extract_trimmed_string d.line_item ≠ none) ∧
    (∀ (data : List DailyUsageData) (g : GroupBy) (flt : String) (d : DailyUsageData),
      d ∈ apply_item_filter data g (some flt) ↔
        d ∈ data ∧ usage_group_key g d = flt ∧
          extract_trimmed_string (match g with | .Model => d.model | .ApiKeys => d.api_key_id)
            ≠ none) := by
  constructor
  · intro data flt d
    unfold apply_model_filter
    rw [List.mem_filter]
    constructor
    · rintro ⟨hd, hcond⟩
      rcases (filter_chain_characterization d.line_item flt).mp hcond with ⟨h1, h2⟩
      exact ⟨hd, h1, h2⟩
    · rintro ⟨hd, h1, h2⟩
      exact ⟨hd, (filter_chain_characterization d.line_item flt).mpr ⟨h1, h2⟩⟩
  · intro data g flt d
    unfold apply_item_filter
    rw [List.mem_filter]
    cases g with
    | Model =>
      constructor
      · rintro ⟨hd, hcond⟩
        rcases (filter_chain_characterization d.model flt).mp hcond with ⟨h1, h2⟩
        exact ⟨hd, h1, h2⟩
      · rintro ⟨hd, h1, h2⟩
        exact ⟨hd, (filter_chain_characterization d.model flt).mpr ⟨h1, h2⟩⟩
    | ApiKeys =>
      constructor
      · rintro ⟨hd, hcond⟩
        rcases (filter_chain_characterization d.api_key_id flt).mp hcond with ⟨h1, h2⟩
        exact ⟨hd, h1, h2⟩
      · rintro ⟨hd, h1, h2⟩
        exact ⟨hd, (filter_chain_characterization d.api_key_id flt).mpr ⟨h1, h2⟩⟩

/-! ## OpenAI usage fan-out (src/api/openai.rs, fetch_usage)

The three concurrent sub-endpoint fetches are abstracted as their three
results; fetch_usage is the pure merge the Rust code performs on them.
Vec::join is embedded as joinSep; substring containment is stated over the
character lists. -/

/-- Embeds struct OpenAIUsageResult from src/models.rs (the fields the app
reads). -/
structure OpenAIUsageResult where
  model : Option String
  input_tokens : Nat
  output_tokens : Nat
  api_key_id : Option String
  deriving Repr, DecidableEq

/-- Embeds struct OpenAIUsageBucket from src/models.rs (the fields the app
reads). -/
structure OpenAIUsageBucket where
  start_time : Int
  results : List OpenAIUsageResult
  deriving Repr, DecidableEq

/-- Embeds Vec::join with separator "; " as used for endpoint_errors. -/
def joinSep : List String → String
  | [] => ""
  | [s] => s
  | s :: rest => s ++ "; " ++ joinSep rest

/-- The payload of an ok result, nil for an error (the successful buckets the
for-loop appends). -/
def okData (r : Except String (List OpenAIUsageBucket)) : List OpenAIUsageBucket :=
  match r with
  | .ok buckets => buckets
  | .error _ => []

/-- The error entry the for-loop pushes for a failed endpoint, if any. -/
def errEntry (name : String) (r : Except String (List OpenAIUsageBucket)) : List String :=
  match r with
  | .ok _ => []
  | .error e => [name ++ ": " ++ e]

/-- Embeds OpenAIClient::fetch_usage from src/api/openai.rs, as a function of
the three sub-endpoint results: append successful buckets in order, collect
labelled errors, and fail only when no buckets at all were collected and at
least one error occurred. -/
def fetch_usage (completions_result embeddings_result images_result :
    Except String (List OpenAIUsageBucket)) : Except String (List OpenAIUsageBucket) :=
  let all_buckets :=
    okData completions_result ++ okData embeddings_result ++ okData images_result
  let endpoint_errors :=
    errEntry "completions" completions_result ++ errEntry "embeddings" embeddings_result ++
      errEntry "images" images_result
  if all_buckets = [] ∧ ¬ endpoint_errors = [] then
    .error ("Failed to fetch usage from any endpoint: " ++ joinSep endpoint_errors)
  else
    .ok all_buckets

/-- msg contains sub as a contiguous substring. -/
def containsSubstring (msg sub : String) : Prop :=
  ∃ l r : List Char, msg.data = l ++ sub.data ++ r

/-- C1: if any sub-endpoint succeeds with data, fetch_usage succeeds with the
concatenation of the successful sub-endpoints' buckets in endpoint order and
surfaces no error; if all three fail, it fails with a message containing each
sub-endpoint's error text. -/
theorem fetch_usage_partial_failure :
    (∀ rc re ri : Except String (List OpenAIUsageBucket),
      (∃ bs, (rc = .ok bs ∨ re = .ok bs ∨ ri = .ok bs) ∧ bs ≠ []) →
      fetch_usage rc re ri = .ok (okData rc ++ okData re ++ okData ri)) ∧
    (∀ ec ee ei : String, ∃ msg : String,
      fetch_usage (.error ec) (.error ee) (.error ei) = .error msg ∧
      containsSubstring msg ec ∧ containsSubstring msg ee ∧ containsSubstring msg ei) := by
  constructor
  · rintro rc re ri ⟨bs, hok, hne⟩
    have hnonempty : okData rc ++ okData re ++ okData ri ≠ [] := by
      intro hcontra
      simp only [List.append_eq_nil] at hcontra
      rcases hcontra with ⟨⟨hc1, hc2⟩, hc3⟩
      rcases hok with h | h | h <;> subst h
      · exact hne hc1
      · exact hne hc2
      · exact hne hc3
    unfold fetch_usage
    rw [if_neg (by intro hcontra; exact hnonempty hcontra.1)]
  · intro ec ee ei
    refine ⟨"Failed to fetch usage from any endpoint: " ++
      joinSep (errEntry "completions" (.error ec) ++ errEntry "embeddings" (.error ee) ++
        errEntry "images" (.error ei)), ?_, ?_, ?_, ?_⟩
    · unfold fetch_usage
      rw [if_pos (by constructor <;> simp [okData, errEntry])]
    · refine ⟨("Failed to fetch usage from any endpoint: completions: ").data, ?_, ?_⟩
      · exact ("; embeddings: " ++ ee ++ "; images: " ++ ei).data
      · simp [joinSep, errEntry, String.data_append]
    · refine ⟨("Failed to fetch usage from any endpoint: completions: " ++ ec ++
        "; embeddings: ").data, ?_, ?_⟩
      · exact ("; images: " ++ ei).data
      · simp [joinSep, errEntry, String.data_append]
    · refine ⟨("Failed to fetch usage from any endpoint: completions: " ++ ec ++
        "; embeddings: " ++ ee ++ "; images: ").data, ?_, ?_⟩
      · exact ([] : List Char)
      · simp [joinSep, errEntry, String.data_append]

/-- Witness for fetch_usage_partial_failure: completions succeeds with one
bucket, embeddings fails, images succeeds with one bucket; the result is Ok
with the two buckets concatenated, and the all-fail case produces an error. -/
theorem fetch_usage_partial_failure_witness :
    fetch_usage (.ok [⟨0, []⟩]) (.error "boom") (.ok [⟨86400, []⟩]) =
      .ok [⟨0, []⟩, ⟨86400, []⟩] ∧
    ∃ msg, fetch_usage (.error "a") (.error "b") (.error "c") = .error msg ∧
      containsSubstring msg "a" ∧ containsSubstring msg "b" ∧ containsSubstring msg "c" := by
  constructor
  · have h := fetch_usage_partial_failure.1 (.ok [⟨0, []⟩]) (.error "boom")
      (.ok [⟨86400, []⟩]) ⟨[⟨0, []⟩], Or.inl rfl, by simp⟩
    simpa [okData] using h
  · exact fetch_usage_partial_failure.2 "a" "b" "c"

/-! ## Pagination loops (src/api/openai.rs and src/api/anthropic.rs)

A server is a map from the cursor sent (none on the first request) to the
response, which either fails (non-success status / parse error) or yields a
page. OpenAIClient::fetch_costs and fetch_usage_endpoint iterate
`for _ in 0..30`, embedded as recursion on the remaining iteration budget of
30; AnthropicClient::fetch_costs / fetch_usage, OpenAIClient::fetch_projects
and OpenAIClient::fetch_api_keys_for_project iterate `loop` with no cap,
embedded with an explicit fuel where none means the loop has not finished
within that many iterations. The Nat paired with each result counts the
requests issued (ghost instrumentation). -/

/-- A paginated response body: data, has_more, and the next_page cursor. -/
structure Page (α : Type) where
  data : List α
  has_more : Bool
  next_page : Option String
  deriving Repr

/-- Embeds the capped pagination loop of OpenAIClient::fetch_costs and
OpenAIClient::fetch_usage_endpoint: runs at most the given number of
iterations, stops early on error or has_more = false, returning the
accumulated data and the number of requests issued. -/
def paginate_capped {α : Type} (srv : Option String → Except String (Page α)) :
    Nat → Option String → List α → Except String (List α) × Nat
  | 0, _, acc => (.ok acc, 0)
  | n + 1, page, acc =>
    match srv page with
    | .error e => (.error e, 1)
    | .ok resp =>
      if resp.has_more then
        let r := paginate_capped srv n resp.next_page (acc ++ resp.data)
        (r.1, r.2 + 1)
      else
        (.ok (acc ++ resp.data), 1)

/-- Embeds OpenAIClient::fetch_costs from src/api/openai.rs (the loop runs
for _ in 0..30 starting with no cursor). -/
def openai_fetch_costs {α : Type} (srv : Option String → Except String (Page α)) :
    Except String (List α) × Nat :=
  paginate_capped srv 30 none []

/-- Embeds OpenAIClient::fetch_usage_endpoint from src/api/openai.rs: the same
capped loop over one usage sub-endpoint. -/
def openai_fetch_usage_endpoint {α : Type} (srv : Option String → Except String (Page α)) :
    Except String (List α) × Nat :=
  paginate_capped srv 30 none []

/-- Embeds the uncapped `loop` pagination of AnthropicClient::fetch_costs and
AnthropicClient::fetch_usage from src/api/anthropic.rs, with fuel: none means
the loop has not terminated within fuel iterations. -/
def paginate_uncapped {α : Type} (srv : Option String → Except String (Page α)) :
    Nat → Option String → List α → Option (Except String (List α) × Nat)
  | 0, _, _ => none
  | n + 1, page, acc =>
    match srv page with
    | .error e => some (.error e, 1)
    | .ok resp =>
      if resp.has_more then
        match paginate_uncapped srv n resp.next_page (acc ++ resp.data) with
        | none => none
        | some r => some (r.1, r.2 + 1)
      else
        some (.ok (acc ++ resp.data), 1)

/-- Embeds AnthropicClient::fetch_costs from src/api/anthropic.rs, run with
the given fuel. -/
def anthropic_fetch_costs {α : Type} (srv : Option String → Except String (Page α))
    (fuel : Nat) : Option (Except String (List α) × Nat) :=
  paginate_uncapped srv fuel none []

/-- Embeds struct OpenAIProject from src/models.rs (the fields
fetch_api_key_names_for_ids reads). -/
structure OpenAIProject where
  id : String
  name : String
  deriving Repr, DecidableEq

/-- Embeds struct OpenAIProjectsResponse from src/models.rs (the fields the
pagination loop reads). -/
structure OpenAIProjectsResponse where
  data : List OpenAIProject
  last_id : Option String
  has_more : Bool
  deriving Repr, DecidableEq

/-- Embeds the uncapped `loop` of OpenAIClient::fetch_projects from
src/api/openai.rs: the cursor is the last_id of the previous page; none means
the loop has not terminated within fuel iterations. -/
def fetch_projects_loop (srv : Option String → Except String OpenAIProjectsResponse) :
    Nat → Option String → List OpenAIProject →
      Option (Except String (List OpenAIProject) × Nat)
  | 0, _, _ => none
  | n + 1, after, acc =>
    match srv after with
    | .error e => some (.error e, 1)
    | .ok resp =>
      if resp.has_more then
        match fetch_projects_loop srv n resp.last_id (acc ++ resp.data) with
        | none => none
        | some r => some (r.1, r.2 + 1)
      else
        some (.ok (acc ++ resp.data), 1)

/-- Embeds OpenAIClient::fetch_projects from src/api/openai.rs, run with the
given fuel. -/
def openai_fetch_projects (srv : Option String → Except String OpenAIProjectsResponse)
    (fuel : Nat) : Option (Except String (List OpenAIProject) × Nat) :=
  fetch_projects_loop srv fuel none []

/-- Embeds struct OpenAIProjectApiKey from src/models.rs (the fields
fetch_api_key_names_for_ids reads). -/
structure OpenAIProjectApiKey where
  id : String
  name : Option String
  deriving Repr, DecidableEq

/-- Embeds struct OpenAIProjectApiKeysResponse from src/models.rs (the fields
the pagination loop reads). -/
structure OpenAIProjectApiKeysResponse where
  data : List OpenAIProjectApiKey
  last_id : Option String
  has_more : Bool
  deriving Repr, DecidableEq

/-- Embeds the uncapped `loop` of OpenAIClient::fetch_api_keys_for_project
from src/api/openai.rs: after extending with the page data it breaks when
has_more is false, and also breaks when last_id is absent even with
has_more = true (openai.rs lines 250-258); otherwise it continues with the
last_id cursor. none means the loop has not terminated within fuel
iterations. -/
def fetch_api_keys_loop (srv : Option String → Except String OpenAIProjectApiKeysResponse) :
    Nat → Option String → List OpenAIProjectApiKey →
      Option (Except String (List OpenAIProjectApiKey) × Nat)
  | 0, _, _ => none
  | n + 1, after, acc =>
    match srv after with
    | .error e => some (.error e, 1)
    | .ok resp =>
      if resp.has_more then
        match resp.last_id with
        | some id =>
          match fetch_api_keys_loop srv n (some id) (acc ++ resp.data) with
          | none => none
          | some r => some (r.1, r.2 + 1)
        | none => some (.ok (acc ++ resp.data), 1)
      else
        some (.ok (acc ++ resp.data), 1)

/-- Embeds OpenAIClient::fetch_api_keys_for_project from src/api/openai.rs,
run with the given fuel. -/
def openai_fetch_api_keys_for_project
    (srv : Option String → Except String OpenAIProjectApiKeysResponse) (fuel : Nat) :
    Option (Except String (List OpenAIProjectApiKey) × Nat) :=
  fetch_api_keys_loop srv fuel none []

/-- A server that always reports has_more = true. -/
def alwaysMorePageServer : Option String → Except String (Page Nat) :=
  fun _ => .ok { data := [], has_more := true, next_page := none }

/-- A projects server that always reports has_more = true. -/
def alwaysMoreProjectsServer : Option String → Except String OpenAIProjectsResponse :=
  fun _ => .ok { data := [], last_id := none, has_more := true }

/-- An api-keys server that always reports has_more = true and always supplies
a last_id cursor. -/
def alwaysMoreApiKeysServer : Option String → Except String OpenAIProjectApiKeysResponse :=
  fun _ => .ok { data := [], last_id := some "key_1", has_more := true }

/-- C6 counterexample: against a server that always reports has_more = true,
AnthropicClient::fetch_costs and OpenAIClient::fetch_projects have not
terminated after 100 iterations — far past the claimed cap of about 30 —
while the OpenAI cost fetch stops after exactly 30 requests. -/
theorem pagination_no_cap_counterexample :
    anthropic_fetch_costs alwaysMorePageServer 100 = none ∧
    openai_fetch_projects alwaysMoreProjectsServer 100 = none ∧
    (openai_fetch_costs alwaysMorePageServer).2 = 30 := by
  refine ⟨by rfl, by rfl, by rfl⟩

theorem paginate_capped_le {α : Type} (srv : Option String → Except String (Page α)) :
    ∀ (n : Nat) (page : Option String) (acc : List α),
      (paginate_capped srv n page acc).2 ≤ n := by
  intro n
  induction n with
  | zero => intro page acc; simp [paginate_capped]
  | succ m ih =>
    intro page acc
    simp only [paginate_capped]
    cases srv page with
    | error e => simp
    | ok resp =>
      by_cases hmore : resp.has_more
      · simp only [hmore, if_true]
        exact Nat.succ_le_succ (ih resp.next_page (acc ++ resp.data))
      · simp [hmore]

theorem paginate_uncapped_runs {α : Type}
    (srv : Option String → Except String (Page α))
    (halways : ∀ c, ∃ p, srv c = .ok p ∧ p.has_more = true ∧ p.data = []) :
    ∀ (fuel : Nat) (page : Option String) (acc : List α),
      paginate_uncapped srv fuel page acc = none := by
  intro fuel
  induction fuel with
  | zero => intro page acc; rfl
  | succ m ih =>
    intro page acc
    rcases halways page with ⟨p, hp, hmore, _⟩
    simp only [paginate_uncapped, hp, hmore, if_true]
    rw [ih p.next_page (acc ++ p.data)]

theorem fetch_projects_loop_runs
    (srv : Option String → Except String OpenAIProjectsResponse)
    (halways : ∀ c, ∃ p, srv c = .ok p ∧ p.has_more = true) :
    ∀ (fuel : Nat) (after : Option String) (acc : List OpenAIProject),
      fetch_projects_loop srv fuel after acc = none := by
  intro fuel
  induction fuel with
  | zero => intro after acc; rfl
  | succ m ih =>
    intro after acc
    rcases halways after with ⟨p, hp, hmore⟩
    simp only [fetch_projects_loop, hp, hmore, if_true]
    rw [ih p.last_id (acc ++ p.data)]

theorem fetch_api_keys_loop_runs
    (srv : Option String → Except String OpenAIProjectApiKeysResponse)
    (halways : ∀ c, ∃ p, srv c = .ok p ∧ p.has_more = true ∧ ∃ id, p.last_id = some id) :
    ∀ (fuel : Nat) (after : Option String) (acc : List OpenAIProjectApiKey),
      fetch_api_keys_loop srv fuel after acc = none := by
  intro fuel
  induction fuel with
  | zero => intro after acc; rfl
  | succ m ih =>
    intro after acc
    rcases halways after with ⟨p, hp, hmore, id, hid⟩
    simp only [fetch_api_keys_loop, hp, hmore, if_true, hid]
    rw [ih (some id) (acc ++ p.data)]

/-- C6 (amended): only the OpenAI cost and usage sub-endpoint loops carry the
30-iteration cap — they issue at most 30 requests against any server and stop
as soon as a response reports has_more = false. The Anthropic cost/usage loop
and the OpenAI projects loop are uncapped, terminate only when has_more is
false or a request fails, and against a server that always reports
has_more = true never terminate (still running after any amount of fuel).
The OpenAI per-project api-keys loop is also uncapped but additionally breaks
when a page omits last_id even with has_more = true; it runs forever only
against a server that always reports has_more = true and always supplies a
last_id. -/
theorem pagination_termination :
    (∀ (srv : Option String → Except String (Page Nat)),
      (openai_fetch_costs srv).2 ≤ 30 ∧ (openai_fetch_usage_endpoint srv).2 ≤ 30) ∧
    (∀ (srv : Option String → Except String (Page Nat)) (n : Nat) (page : Option String)
        (acc : List Nat) (resp : Page Nat),
      srv page = .ok resp → resp.has_more = false →
      paginate_capped srv (n + 1) page acc = (.ok (acc ++ resp.data), 1)) ∧
    (∀ fuel : Nat, anthropic_fetch_costs alwaysMorePageServer fuel = none) ∧
    (∀ fuel : Nat, openai_fetch_projects alwaysMoreProjectsServer fuel = none) ∧
    (∀ fuel : Nat,
      openai_fetch_api_keys_for_project alwaysMoreApiKeysServer fuel = none) ∧
    (∀ (srv : Option String → Except String OpenAIProjectApiKeysResponse) (n : Nat)
        (after : Option String) (acc : List OpenAIProjectApiKey)
        (resp : OpenAIProjectApiKeysResponse),
      srv after = .ok resp → resp.has_more = true → resp.last_id = none →
      fetch_api_keys_loop srv (n + 1) after acc = some (.ok (acc ++ resp.data), 1)) := by
  refine ⟨?_, ?_, ?_, ?_, ?_, ?_⟩
  · intro srv
    exact ⟨paginate_capped_le srv 30 none [], paginate_capped_le srv 30 none []⟩
  · intro srv n page acc resp hresp hmore
    simp [paginate_capped, hresp, hmore]
  · intro fuel
    exact paginate_uncapped_runs alwaysMorePageServer
      (fun c => ⟨{ data := [], has_more := true, next_page := none }, rfl, rfl, rfl⟩)
      fuel none []
  · intro fuel
    exact fetch_projects_loop_runs alwaysMoreProjectsServer
      (fun c => ⟨{ data := [], last_id := none, has_more := true }, rfl, rfl⟩)
      fuel none []
  · intro fuel
    exact fetch_api_keys_loop_runs alwaysMoreApiKeysServer
      (fun c => ⟨{ data := [], last_id := some "key_1", has_more := true }, rfl, rfl,
        "key_1", rfl⟩)
      fuel none []
  · intro srv n after acc resp hresp hmore hid
    simp [fetch_api_keys_loop, hresp, hmore, hid]

/-- Witness for pagination_termination: a one-page server with has_more =
false yields its data in a single request, and an api-keys page with
has_more = true but no last_id also stops the api-keys loop after one
request. -/
theorem pagination_termination_witness :
    paginate_capped (fun _ => .ok { data := [7], has_more := false, next_page := none })
        30 none [] = (.ok [7], 1) ∧
    (openai_fetch_costs (fun _ => .ok ({ data := [7], has_more := false, next_page := none }
      : Page Nat))).2 ≤ 30 ∧
    fetch_api_keys_loop
        (fun _ => .ok { data := [⟨"id_1", none⟩], last_id := none, has_more := true })
        30 none [] = some (.ok [⟨"id_1", none⟩], 1) := by
  refine ⟨?_, ?_, ?_⟩
  · have h := pagination_termination.2.1
      (fun _ => .ok { data := [7], has_more := false, next_page := none })
      29 none [] { data := [7], has_more := false, next_page := none } rfl rfl
    simpa using h
  · exact (pagination_termination.1
      (fun _ => .ok { data := [7], has_more := false, next_page := none })).1
  · have h := pagination_termination.2.2.2.2.2
      (fun _ => .ok { data := [⟨"id_1", none⟩], last_id := none, has_more := true })
      29 none [] { data := [⟨"id_1", none⟩], last_id := none, has_more := true } rfl rfl rfl
    simpa using h

/-! ## Navigation state machine (src/app.rs)

The App fields the mutating methods of src/app.rs touch are modelled; clients
are modelled by presence (the stored key string plays no role in navigation).
The remaining fields (data, loading, errors, animation_frame) are written only
by the fetch plumbing and never read or written by these transitions, so they
are omitted. Rust's rem_euclid on a positive modulus is Int.emod. -/

/-- Embeds enum Provider from src/app.rs. -/
inductive Provider where
  | OpenAI
  | Anthropic
  deriving Repr, DecidableEq

/-- Embeds enum View from src/app.rs. -/
inductive View where
  | Cost
  | Usage
  deriving Repr, DecidableEq

/-- Embeds enum OptionsColumn from src/app.rs. -/
inductive OptionsColumn where
  | Provider
  | Metric
  | GroupBy
  deriving Repr, DecidableEq

/-- Embeds struct App from src/app.rs (the navigation-relevant fields). -/
structure App where
  openai_client : Bool
  anthropic_client : Bool
  selected_provider : Provider
  options_column : OptionsColumn
  current_view : View
  group_by : GroupBy
  api_key_popup_active : Option Provider
  api_key_input : String
  deriving Repr, DecidableEq

/-- Embeds App::new from src/app.rs. -/
def App.new : App :=
  { openai_client := false
    anthropic_client := false
    selected_provider := .OpenAI
    options_column := .Provider
    current_view := .Usage
    group_by := .Model
    api_key_popup_active := none
    api_key_input := "" }

/-- Embeds App::has_client from src/app.rs. -/
def App.has_client (a : App) (p : Provider) : Bool :=
  match p with
  | .OpenAI => a.openai_client
  | .Anthropic => a.anthropic_client

/-- Position of the column in the array [Provider, Metric, GroupBy]. -/
def columnPos : OptionsColumn → Int
  | .Provider => 0
  | .Metric => 1
  | .GroupBy => 2

/-- Indexing of the array [Provider, Metric, GroupBy]. -/
def columnAt (k : Int) : OptionsColumn :=
  if k = 0 then .Provider else if k = 1 then .Metric else .GroupBy

/-- Position in the array [OpenAI, Anthropic]. -/
def providerPos : Provider → Int
  | .OpenAI => 0
  | .Anthropic => 1

/-- Indexing of the array [OpenAI, Anthropic]. -/
def providerAt (k : Int) : Provider :=
  if k = 0 then .OpenAI else .Anthropic

/-- Position in the array [Usage, Cost]. -/
def viewPos : View → Int
  | .Usage => 0
  | .Cost => 1

/-- Indexing of the array [Usage, Cost]. -/
def viewAt (k : Int) : View :=
  if k = 0 then .Usage else .Cost

/-- Position in the array [Model, ApiKeys]. -/
def groupPos : GroupBy → Int
  | .Model => 0
  | .ApiKeys => 1

/-- Indexing of the array [Model, ApiKeys]. -/
def groupAt (k : Int) : GroupBy :=
  if k = 0 then .Model else .ApiKeys

/-- Embeds App::move_options_column from src/app.rs. -/
def App.move_options_column (a : App) (delta : Int) : App :=
  { a with options_column := columnAt ((columnPos a.options_column + delta).emod 3) }

/-- Embeds App::show_api_key_popup from src/app.rs. -/
def App.show_api_key_popup (a : App) (p : Provider) : App :=
  { a with api_key_popup_active := some p, api_key_input := "" }

/-- Embeds App::cancel_api_key_popup from src/app.rs. -/
def App.cancel_api_key_popup (a : App) : App :=
  { a with api_key_popup_active := none, api_key_input := "" }

/-- Embeds App::move_column_cursor from src/app.rs. -/
def App.move_column_cursor (a : App) (delta : Int) : App :=
  match a.options_column with
  | .Provider =>
    let new_provider := providerAt ((providerPos a.selected_provider + delta).emod 2)
    if new_provider ≠ a.selected_provider then
      let a2 := { a with selected_provider := new_provider }
      if ¬ a2.has_client new_provider then a2.show_api_key_popup new_provider
      else a2.cancel_api_key_popup
    else a
  | .Metric =>
    let new_view := viewAt ((viewPos a.current_view + delta).emod 2)
    if new_view ≠ a.current_view then
      let a2 := { a with current_view := new_view }
      if new_view = .Cost then { a2 with group_by := .Model } else a2
    else a
  | .GroupBy =>
    if a.current_view = .Usage then
      { a with group_by := groupAt ((groupPos a.group_by + delta).emod 2) }
    else a

/-- Embeds App::ensure_selection_has_client from src/app.rs. -/
def App.ensure_selection_has_client (a : App) : App :=
  if a.has_client a.selected_provider then a
  else if a.openai_client then { a with selected_provider := .OpenAI }
  else if a.anthropic_client then { a with selected_provider := .Anthropic }
  else a

/-- Embeds App::set_openai_client from src/app.rs (the key string is not
modelled, only presence). -/
def App.set_openai_client (a : App) : App :=
  ({ a with openai_client := true }).ensure_selection_has_client

/-- Embeds App::set_anthropic_client from src/app.rs. -/
def App.set_anthropic_client (a : App) : App :=
  ({ a with anthropic_client := true }).ensure_selection_has_client

/-- Embeds App::submit_api_key from src/app.rs. -/
def App.submit_api_key (a : App) : App :=
  match a.api_key_popup_active with
  | some p =>
    if ¬ (a.api_key_input.trim = "") then
      let a2 := match p with
        | Provider.OpenAI => a.set_openai_client
        | Provider.Anthropic => a.set_anthropic_client
      { a2 with api_key_popup_active := none, api_key_input := "" }
    else a
  | none => a

/-- The crossterm key codes App::handle_api_key_input distinguishes. -/
inductive KeyCode where
  | Char (c : Char)
  | Backspace
  | Other
  deriving Repr, DecidableEq

/-- Embeds App::handle_api_key_input from src/app.rs. -/
def App.handle_api_key_input (a : App) (k : KeyCode) : App :=
  match k with
  | .Char c => { a with api_key_input := a.api_key_input.push c }
  | .Backspace => { a with api_key_input := a.api_key_input.dropRight 1 }
  | .Other => a

/-- One application of a public mutating App method. -/
inductive AppStep : App → App → Prop where
  | move_options_column (a : App) (delta : Int) : AppStep a (a.move_options_column delta)
  | move_column_cursor (a : App) (delta : Int) : AppStep a (a.move_column_cursor delta)
  | set_openai_client (a : App) : AppStep a a.set_openai_client
  | set_anthropic_client (a : App) : AppStep a a.set_anthropic_client
  | ensure_selection_has_client (a : App) : AppStep a a.ensure_selection_has_client
  | show_api_key_popup (a : App) (p : Provider) : AppStep a (a.show_api_key_popup p)
  | cancel_api_key_popup (a : App) : AppStep a a.cancel_api_key_popup
  | submit_api_key (a : App) : AppStep a a.submit_api_key
  | handle_api_key_input (a : App) (k : KeyCode) : AppStep a (a.handle_api_key_input k)

/-- States reachable from App::new by the public mutating methods. -/
inductive AppReachable : App → Prop where
  | init : AppReachable App.new
  | step {a b : App} : AppReachable a → AppStep a b → AppReachable b

theorem ensure_preserves_view_group (a : App) :
    a.ensure_selection_has_client.current_view = a.current_view ∧
    a.ensure_selection_has_client.group_by = a.group_by := by
  unfold App.ensure_selection_has_client
  split
  · exact ⟨rfl, rfl⟩
  · split
    · exact ⟨rfl, rfl⟩
    · split
      · exact ⟨rfl, rfl⟩
      · exact ⟨rfl, rfl⟩

theorem set_openai_preserves (a : App) :
    a.set_openai_client.current_view = a.current_view ∧
    a.set_openai_client.group_by = a.group_by :=
  ensure_preserves_view_group { a with openai_client := true }

theorem set_anthropic_preserves (a : App) :
    a.set_anthropic_client.current_view = a.current_view ∧
    a.set_anthropic_client.group_by = a.group_by :=
  ensure_preserves_view_group { a with anthropic_client := true }

theorem submit_preserves (a : App) :
    a.submit_api_key.current_view = a.current_view ∧
    a.submit_api_key.group_by = a.group_by := by
  unfold App.submit_api_key
  cases a.api_key_popup_active with
  | none => exact ⟨rfl, rfl⟩
  | some p =>
    simp only []
    split
    · cases p with
      | OpenAI => exact ⟨(set_openai_preserves a).1, (set_openai_preserves a).2⟩
      | Anthropic => exact ⟨(set_anthropic_preserves a).1, (set_anthropic_preserves a).2⟩
    · exact ⟨rfl, rfl⟩

theorem appStep_preserves_invariant {a b : App} (hstep : AppStep a b)
    (hinv : a.current_view = View.Cost → a.group_by = GroupBy.Model) :
    b.current_view = View.Cost → b.group_by = GroupBy.Model := by
  cases hstep with
  | move_options_column delta => exact hinv
  | move_column_cursor delta =>
    unfold App.move_column_cursor
    cases hcol : a.options_column with
    | Provider =>
      simp only [hcol]
      split
      · split
        · exact fun h => hinv h
        · exact fun h => hinv h
      · exact hinv
    | Metric =>
      simp only [hcol]
      split
      · split
        · intro _; rfl
        · rename_i hne hnotcost
          intro hcost
          exact absurd hcost hnotcost
      · exact hinv
    | GroupBy =>
      simp only [hcol]
      split
      · rename_i husage
        intro hcost
        have hc2 : a.current_view = View.Cost := hcost
        rw [husage] at hc2
        cases hc2
      · exact hinv
  | set_openai_client =>
    intro h
    rw [(set_openai_preserves a).2]
    exact hinv ((set_openai_preserves a).1 ▸ h)
  | set_anthropic_client =>
    intro h
    rw [(set_anthropic_preserves a).2]
    exact hinv ((set_anthropic_preserves a).1 ▸ h)
  | ensure_selection_has_client =>
    intro h
    rw [(ensure_preserves_view_group a).2]
    exact hinv ((ensure_preserves_view_group a).1 ▸ h)
  | show_api_key_popup p => exact hinv
  | cancel_api_key_popup => exact hinv
  | submit_api_key =>
    intro h
    rw [(submit_preserves a).2]
    exact hinv ((submit_preserves a).1 ▸ h)
  | handle_api_key_input k =>
    cases k with
    | Char c => exact hinv
    | Backspace => exact hinv
    | Other => exact hinv

/-- C9: in every reachable App state, the Cost view forces grouping by Model;
consequently grouping by API keys only ever occurs with the Usage view. The
initial state satisfies the invariant, switching the metric to Cost resets
group_by to Model, and the group-by cursor only moves while the view is
Usage. -/
theorem cost_view_forces_model_group :
    (∀ a : App, AppReachable a → a.current_view = View.Cost → a.group_by = GroupBy.Model) ∧
    (∀ a : App, AppReachable a → a.group_by = GroupBy.ApiKeys →
      a.current_view = View.Usage) := by
  have hmain : ∀ a : App, AppReachable a →
      (a.current_view = View.Cost → a.group_by = GroupBy.Model) := by
    intro a h
    induction h with
    | init => intro h; cases h
    | step hr hs ih => exact appStep_preserves_invariant hs ih
  refine ⟨hmain, ?_⟩
  intro a h hapi
  cases hview : a.current_view with
  | Usage => rfl
  | Cost =>
    have := hmain a h hview
    rw [this] at hapi
    cases hapi

/-- Witness for cost_view_forces_model_group: after moving the metric cursor
to Cost from the initial state (with the Metric column active), the group-by
is Model. -/
theorem cost_view_forces_model_group_witness :
    ((App.new.move_options_column 1).move_column_cursor 1).group_by = GroupBy.Model ∧
    ((App.new.move_options_column 1).move_column_cursor 1).current_view = View.Cost := by
  constructor
  · exact cost_view_forces_model_group.1 _
      (AppReachable.step
        (AppReachable.step AppReachable.init (AppStep.move_options_column App.new 1))
        (AppStep.move_column_cursor (App.new.move_options_column 1) 1))
      (by rfl)
  · rfl

/-! ## Anthropic cost normalization (src/fetch.rs fetch_anthropic_data,
duplicated in src/app.rs)

The external parsers — chrono's DateTime::parse_from_rfc3339 (a point on the
UTC timeline, as an Int) and str::parse::<f64> (as ℚ) — are abstracted as
Option-returning parameters. -/

/-- Embeds struct AnthropicCostResult from src/models.rs (the fields the
normalization reads). -/
structure AnthropicCostResult where
  currency : String
  amount : String
  model : Option String
  deriving Repr, DecidableEq

/-- Embeds struct AnthropicCostBucket from src/models.rs. -/
structure AnthropicCostBucket where
  starting_at : String
  results : List AnthropicCostResult
  deriving Repr, DecidableEq

/-- Embeds Vec::sort_by_key on the date (a stable sort, so insertion sort by
the key order). -/
def sort_by_date (l : List DailyData) : List DailyData :=
  List.insertionSort (fun d1 d2 => d1.date ≤ d2.date) l

/-- Embeds the Ok-branch cost normalization of fetch_anthropic_data
(src/fetch.rs lines 150-174 and src/app.rs lines 394-418): buckets whose
starting_at fails RFC3339 parsing are skipped, results whose amount string
fails f64 parsing are skipped, the amount is interpreted as cents and divided
by 100, and only strictly positive costs are pushed; finally the records are
sorted by date. -/
def normalize_anthropic_costs (parse_rfc3339 : String → Option Int)
    (parse_f64 : String → Option ℚ) (buckets : List AnthropicCostBucket) :
    List DailyData :=
  sort_by_date <| buckets.flatMap (fun bucket =>
    match parse_rfc3339 bucket.starting_at with
    | none => []
    | some date =>
      bucket.results.filterMap (fun result =>
        match parse_f64 result.amount with
        | none => none
        | some cost_cents =>
          let cost := cost_cents / 100
          if 0 < cost then some { date := date, cost := cost, line_item := result.model }
          else none))

/-- C10: every Anthropic cost record handed to the store has cost > 0, and a
record is present exactly when some bucket parses as an RFC3339 date and some
of its results parses as a number whose value divided by 100 is strictly
positive — every other result is silently dropped. -/
theorem anthropic_cost_normalization (pd : String → Option Int)
    (pa : String → Option ℚ) (buckets : List AnthropicCostBucket) :
    (∀ rec ∈ normalize_anthropic_costs pd pa buckets, 0 < rec.cost) ∧
    (∀ rec : DailyData, rec ∈ normalize_anthropic_costs pd pa buckets ↔
      ∃ b ∈ buckets, ∃ date : Int, pd b.starting_at = some date ∧
        ∃ res ∈ b.results, ∃ cents : ℚ, pa res.amount = some cents ∧
          0 < cents / 100 ∧ rec = ⟨date, cents / 100, res.model⟩) := by
  have hchar : ∀ rec : DailyData, rec ∈ normalize_anthropic_costs pd pa buckets ↔
      ∃ b ∈ buckets, ∃ date : Int, pd b.starting_at = some date ∧
        ∃ res ∈ b.results, ∃ cents : ℚ, pa res.amount = some cents ∧
          0 < cents / 100 ∧ rec = ⟨date, cents / 100, res.model⟩ := by
    intro rec
    unfold normalize_anthropic_costs sort_by_date
    rw [(List.perm_insertionSort _ _).mem_iff]
    rw [List.mem_flatMap]
    constructor
    · rintro ⟨b, hb, hmem⟩
      refine ⟨b, hb, ?_⟩
      cases hpd : pd b.starting_at with
      | none => rw [hpd] at hmem; cases hmem
      | some date =>
        rw [hpd] at hmem
        rcases List.mem_filterMap.mp hmem with ⟨res, hres, hf⟩
        refine ⟨date, rfl, res, hres, ?_⟩
        cases hpa : pa res.amount with
        | none => rw [hpa] at hf; cases hf
        | some cents =>
          rw [hpa] at hf
          simp only [] at hf
          by_cases hpos : 0 < cents / 100
          · rw [if_pos hpos] at hf
            exact ⟨cents, rfl, hpos, (Option.some.inj hf).symm⟩
          · rw [if_neg hpos] at hf
            cases hf
    · rintro ⟨b, hb, date, hpd, res, hres, cents, hpa, hpos, hrec⟩
      refine ⟨b, hb, ?_⟩
      rw [hpd]
      refine List.mem_filterMap.mpr ⟨res, hres, ?_⟩
      rw [hpa]
      simp only []
      rw [if_pos hpos, hrec]
  refine ⟨?_, hchar⟩
  intro rec hrec
  rcases (hchar rec).mp hrec with ⟨b, hb, date, hpd, res, hres, cents, hpa, hpos, hrec2⟩
  rw [hrec2]
  exact hpos

end Toktop
